import Mathlib

/-!
Shallow embedding of the interactive extraction/playback workflow of
`src/main.py` (function `run_extraction_workflow`), together with the
parts of the preference store and audio renderer that the workflow calls.

The interactive command loop (src/main.py lines 329-401) reads one line
per iteration, normalizes it with `.strip().lower()`, and dispatches on
the resulting string.  We embed the loop body as a pure step function
over an explicit session state, with the command-line string represented
as a `List Char` and Python's string operations re-implemented over
`List Char`.  `strip`/`split` use Python's full whitespace set; `lower`
is modelled on its ASCII fragment and `int()` on ASCII digits with
PEP 515 grouping — where a theorem's truth depends on these fragments it
carries explicit token hypotheses restricting to them.

`LibraryManager` (preference store) and `AudioTool` (renderer) are
imported by `src/main.py` from modules that are not part of the given
sources; they are modelled from the spec where indicated.
-/

/-! ## Python string primitives over `List Char` -/

/-- Characters of a string literal, used to write command lines. -/
def chars (s : String) : List Char := s.data

/-- Whitespace characters recognized by Python's `str.strip` / `str.split`:
tab through CR, the separators 0x1C-0x1F, space, and the Unicode
whitespace code points (NEL, NBSP, Ogham space, the U+2000 block, line and
paragraph separators, narrow and medium spaces, ideographic space). -/
def pyIsWs (c : Char) : Bool :=
  decide ((9 ≤ c.toNat ∧ c.toNat ≤ 13) ∨ (28 ≤ c.toNat ∧ c.toNat ≤ 32) ∨
    c.toNat = 133 ∨ c.toNat = 160 ∨ c.toNat = 5760 ∨
    (8192 ≤ c.toNat ∧ c.toNat ≤ 8202) ∨ c.toNat = 8232 ∨ c.toNat = 8233 ∨
    c.toNat = 8239 ∨ c.toNat = 8287 ∨ c.toNat = 12288)

/-- ASCII decimal digit test, as used by Python's `int()` parsing. -/
def isDigitChar (c : Char) : Bool :=
  decide (48 ≤ c.toNat ∧ c.toNat ≤ 57)

/-- ASCII lower-casing of one character (Python `str.lower`, ASCII fragment). -/
def pyLowerChar (c : Char) : Char :=
  if 65 ≤ c.toNat ∧ c.toNat ≤ 90 then Char.ofNat (c.toNat + 32) else c

/-- Python `str.lower` (ASCII fragment). -/
def pyLower (l : List Char) : List Char := l.map pyLowerChar

/-- Python `str.strip()`: drop leading and trailing whitespace. -/
def pyStrip (l : List Char) : List Char :=
  (((l.dropWhile pyIsWs).reverse.dropWhile pyIsWs)).reverse

/-- Worker for Python `str.split()` with no separator: split on runs of
whitespace, discarding empty fields; `acc` holds the current word reversed. -/
def wordsAux : List Char → List Char → List (List Char)
  | [], acc => if acc.isEmpty then [] else [acc.reverse]
  | c :: cs, acc =>
    if pyIsWs c then
      if acc.isEmpty then wordsAux cs [] else acc.reverse :: wordsAux cs []
    else wordsAux cs (c :: acc)

/-- Python `str.split()` (no separator argument). -/
def pyWords (l : List Char) : List (List Char) := wordsAux l []

/-- Python `str.startswith` on character lists. -/
def startsWithChars : List Char → List Char → Bool
  | [], _ => true
  | _ :: _, [] => false
  | p :: ps, c :: cs => p == c && startsWithChars ps cs

/-- Python `str.split('-')`: split on every hyphen, keeping empty fields. -/
def splitHyphen : List Char → List (List Char)
  | [] => [[]]
  | c :: cs =>
    if c = '-' then [] :: splitHyphen cs
    else
      match splitHyphen cs with
      | [] => [[c]]
      | g :: gs => (c :: g) :: gs

/-- Numeric value of a digit sequence with PEP 515 underscore grouping
(the underscores are stripped before reading the decimal digits). -/
def digitsVal (l : List Char) : Nat :=
  (l.filter (fun c => !(c == '_'))).foldl (fun a c => a * 10 + (c.toNat - 48)) 0

/-- Tail of a PEP 515 digit group: digits with single underscores that
must sit between two digits (no trailing or doubled underscore). -/
def groupedTail : List Char → Bool
  | [] => true
  | ['_'] => false
  | '_' :: d :: ds => isDigitChar d && groupedTail ds
  | c :: cs => isDigitChar c && groupedTail cs

/-- A PEP 515 digit sequence: one leading digit, then `groupedTail`. -/
def groupedDigits : List Char → Bool
  | [] => false
  | c :: cs => isDigitChar c && groupedTail cs

/-- Python `int(str)`: strip whitespace, then an optional sign followed by
ASCII digits with PEP 515 single-underscore grouping; `none` models the
`ValueError` raised on any other input.  (Python additionally accepts
non-ASCII Unicode decimal digits; the theorems that rely on the `none`
case therefore carry an ASCII hypothesis.) -/
def pyIntChars (l : List Char) : Option Int :=
  match pyStrip l with
  | [] => Option.none
  | c :: cs =>
    if c = '+' then
      if groupedDigits cs then Option.some (digitsVal cs) else Option.none
    else if c = '-' then
      if groupedDigits cs then Option.some (-(digitsVal cs : Int)) else Option.none
    else
      if groupedDigits (c :: cs) then Option.some (digitsVal (c :: cs)) else Option.none

/-- Full normalization applied by the loop: `input(...).strip().lower()`
(src/main.py line 341). -/
def pyNorm (l : List Char) : List Char := pyLower (pyStrip l)

/-! ## Data model

The extracted music data is a nested dictionary
`{key, tempo, measures: [{id, right_hand, left_hand}]}` (see
`src/examples/multi_agent_example.py` for its concrete shape).  Python's
`!=` on these nested dictionaries is deep structural equality, which the
derived `DecidableEq` mirrors. -/

/-- One note event: simultaneous pitches plus a duration symbol. -/
structure NoteEvent where
  notes : List String
  duration : String
deriving DecidableEq

/-- One measure with per-hand note events. -/
structure Measure where
  id : Int
  right_hand : List NoteEvent
  left_hand : List NoteEvent
deriving DecidableEq

/-- The extracted score data (`music_data` / `corrected_data` in
`src/main.py`). -/
structure MusicData where
  key : String
  tempo : String
  measures : List Measure
deriving DecidableEq

/-- A dynamically typed Python value, as stored in preferences and held in
`args.tempo` / `args.hand` / `current_tempo` (which mix `None`, `str` and
`int` in the source). -/
inductive PyVal where
  | none
  | str (s : String)
  | int (n : Int)
deriving DecidableEq

/-- Python truthiness of a `PyVal` (`None`, `''` and `0` are falsy). -/
def pyTruthy : PyVal → Bool
  | .none => false
  | .str s => !(s = "")
  | .int n => !(n = 0)

/-- Python `str()` applied to a `PyVal` (src/main.py line 310 applies `str`
to the looked-up tempo). -/
def pyStr : PyVal → String
  | .none => "None"
  | .str s => s
  | .int n => toString n

/-! ## Preference store

Modelled from the spec: `LibraryManager.get_user_preferences` /
`LibraryManager.update_preference` (module `tools/library_manager.py`,
not present in the given sources).  Per spec section 4.2 the store is a
per-user key/value upsert with last-write-wins semantics, immediately
visible to subsequent reads, storing keys transparently. -/

structure PrefStore where
  entries : List (String × String × PyVal)
deriving DecidableEq

/-- Modelled from the spec: `update(user_id, key, value)` upsert,
last-write-wins.  The newest entry is prepended and shadows older ones.
Argument order follows the call `library.update_preference(key, value,
user_id)` in src/main.py lines 385 and 396. -/
def PrefStore.update (st : PrefStore) (key : String) (v : PyVal) (user : String) :
    PrefStore :=
  ⟨(user, key, v) :: st.entries⟩

/-- Current value stored for `(user, key)`, if any. -/
def PrefStore.lookup (st : PrefStore) (user : String) (key : String) : Option PyVal :=
  (st.entries.find? (fun e => e.1 = user ∧ e.2.1 = key)).map (fun e => e.2.2)

/-- Python `preferences.get(key)` on the mapping returned by
`get_user_preferences(user)`: absent keys yield `None`. -/
def PrefStore.get (st : PrefStore) (user : String) (key : String) : PyVal :=
  (st.lookup user key).getD PyVal.none

/-! ## Preference application in the workflow (src/main.py lines 306-316) -/

/-- Embeds src/main.py lines 309-311: `if not args.tempo and
preferences.get('default_tempo'): args.tempo =
str(preferences.get('default_tempo'))`. -/
def appliedTempo (store : PrefStore) (user : String) (argsTempo : PyVal) : PyVal :=
  if !(pyTruthy argsTempo) && pyTruthy (store.get user "default_tempo") then
    PyVal.str (pyStr (store.get user "default_tempo"))
  else argsTempo

/-- Embeds src/main.py lines 314-316: `if args.hand == 'both' and
preferences.get('preferred_hand') != 'both': args.hand =
preferences.get('preferred_hand')`. -/
def appliedHand (store : PrefStore) (user : String) (argsHand : PyVal) : PyVal :=
  if argsHand = PyVal.str "both" ∧ store.get user "preferred_hand" ≠ PyVal.str "both" then
    store.get user "preferred_hand"
  else argsHand

/-! ## Correction step (src/main.py lines 291-296)

`extractor.learn_from_correction` and `library.record_correction_pattern`
live in modules outside the given sources; per the spec (sections 4.3 and
3) they are the only operations of this step that create CorrectionRecords
or mutate the preference store.  We therefore record their invocations:
an empty call log means no CorrectionRecord and no store mutation. -/

structure CorrectionCalls where
  learnCalls : List (MusicData × MusicData × String)
  patternCalls : List (MusicData × MusicData × String)
deriving DecidableEq

/-- Embeds the guard `if corrected_data != music_data:` and the two calls
under it (src/main.py lines 294-296). -/
def correctionStep (music corrected : MusicData) (user : String) : CorrectionCalls :=
  if corrected ≠ music then
    ⟨[(music, corrected, user)], [(music, corrected, user)]⟩
  else ⟨[], []⟩

/-! ## Renderer and interactive session -/

/-- Modelled from the spec: `AudioTool.play` (module `tools/audio_tool.py`,
not present in the given sources).  Per spec section 4.4 the play pipeline
"clamps `end` to `total_measures` and `start` to `1`", while "a reversed
range `start > end` ... is an error reported to the caller"; the error is
raised as an exception (the caller in src/main.py lines 350-355 wraps the
call in `try/except`).  On success we return the clamped range actually
rendered. -/
def rendererPlay (total : Nat) (s e : Int) : Except Unit (Int × Int) :=
  if s > e then Except.error ()
  else Except.ok (max 1 s, min (total : Int) e)

/-- Observable actions of one loop iteration: console output and calls to
the renderer (with the raw requested range and the clamped range the
renderer plays). -/
inductive Effect where
  | printed (msg : String)
  | rendered (hands : List String) (tempo : PyVal) (requested : Int × Int)
      (effective : Int × Int)
deriving DecidableEq

/-- The mutable state of the interactive session: `current_measure`,
`total_measures`, `current_tempo`, `current_hands`
(src/main.py lines 329-338). -/
structure SessionState where
  currentMeasure : Int
  totalMeasures : Nat
  currentTempo : PyVal
  currentHands : List String
deriving DecidableEq

/-- Outcome of one loop iteration: continue with new state and store,
leave the loop (`exit`), or terminate the session by an uncaught Python
exception. -/
inductive StepResult where
  | cont (st : SessionState) (store : PrefStore) (effects : List Effect)
  | exited (effects : List Effect)
  | crashed (exc : String) (effects : List Effect)
deriving DecidableEq

/-- State of `stepCmd` results, when the loop continues. -/
def StepResult.state : StepResult → Option SessionState
  | .cont st _ _ => Option.some st
  | _ => Option.none

/-- Store of `stepCmd` results, when the loop continues. -/
def StepResult.store : StepResult → Option PrefStore
  | .cont _ σ _ => Option.some σ
  | _ => Option.none

/-- The command classes the dispatch of src/main.py lines 343-401
distinguishes.  Branch selection depends only on the command string,
never on the session state, so parsing is factored out of the action. -/
inductive Cmd where
  | exitC
  | playRange (s e : Int)
  | playRangeInvalid
  | playSingle (m : Int)
  | playSingleInvalid
  | playAll
  | nextC
  | prevC
  | tempoSet (n : Int)
  | tempoInvalid
  | handSet (h : List Char)
  | handMissing
  | unknown
deriving DecidableEq

/-- Parse one input line exactly as the dispatch in src/main.py lines
341-400 does: normalize with `.strip().lower()`, then test `== 'exit'`,
`.startswith('play')` (splitting the argument on `'-'` and parsing ints,
any failure landing in the `except` branch), `== 'next'`, `== 'prev'`,
`.startswith('tempo')` (a missing or unparseable argument is caught by the
`except`), `.startswith('hand')` (a missing argument is an uncaught
`IndexError`, `handMissing`), else an unknown command. -/
def parseCmd (line : List Char) : Cmd :=
  if pyNorm line = chars "exit" then Cmd.exitC
  else if startsWithChars (chars "play") (pyNorm line) = true then
    if (pyWords (pyNorm line)).length > 1 then
      if '-' ∈ (pyWords (pyNorm line)).getD 1 [] then
        match splitHyphen ((pyWords (pyNorm line)).getD 1 []) with
        | [a, b] =>
          match pyIntChars a, pyIntChars b with
          | Option.some s, Option.some e => Cmd.playRange s e
          | _, _ => Cmd.playRangeInvalid
        | _ => Cmd.playRangeInvalid
      else
        match pyIntChars ((pyWords (pyNorm line)).getD 1 []) with
        | Option.some m => Cmd.playSingle m
        | Option.none => Cmd.playSingleInvalid
    else Cmd.playAll
  else if pyNorm line = chars "next" then Cmd.nextC
  else if pyNorm line = chars "prev" then Cmd.prevC
  else if startsWithChars (chars "tempo") (pyNorm line) = true then
    match (pyWords (pyNorm line))[1]? with
    | Option.some t =>
      match pyIntChars t with
      | Option.some n => Cmd.tempoSet n
      | Option.none => Cmd.tempoInvalid
    | Option.none => Cmd.tempoInvalid
  else if startsWithChars (chars "hand") (pyNorm line) = true then
    match (pyWords (pyNorm line))[1]? with
    | Option.some h => Cmd.handSet h
    | Option.none => Cmd.handMissing
  else Cmd.unknown

/-- Execute one dispatched command on the session state, mirroring the
actions of src/main.py lines 343-401.  `play s-e` renders then sets
`current_measure = e` (line 353); a renderer error is caught and printed
as `Invalid range.` (line 355).  The no-argument `play` (line 365) and the
renderer calls of `next`/`prev` (lines 370, 377) are *not* inside a
`try`, so a renderer error there is an uncaught exception.  `tempo n`
stores under the preference key `'tempo'` (line 385); `hand` with a
missing argument raises `IndexError` (line 391). -/
def applyCmd (user : String) (st : SessionState) (store : PrefStore) :
    Cmd → StepResult
  | Cmd.exitC => StepResult.exited []
  | Cmd.playRange s e =>
    match rendererPlay st.totalMeasures s e with
    | Except.ok eff =>
      StepResult.cont { st with currentMeasure := e } store
        [Effect.rendered st.currentHands st.currentTempo (s, e) eff]
    | Except.error _ => StepResult.cont st store [Effect.printed "Invalid range."]
  | Cmd.playRangeInvalid => StepResult.cont st store [Effect.printed "Invalid range."]
  | Cmd.playSingle m =>
    match rendererPlay st.totalMeasures m m with
    | Except.ok eff =>
      StepResult.cont { st with currentMeasure := m } store
        [Effect.rendered st.currentHands st.currentTempo (m, m) eff]
    | Except.error _ =>
      StepResult.cont st store [Effect.printed "Invalid measure number."]
  | Cmd.playSingleInvalid =>
    StepResult.cont st store [Effect.printed "Invalid measure number."]
  | Cmd.playAll =>
    match rendererPlay st.totalMeasures st.currentMeasure (st.totalMeasures : Int) with
    | Except.ok eff =>
      StepResult.cont st store
        [Effect.rendered st.currentHands st.currentTempo
          (st.currentMeasure, (st.totalMeasures : Int)) eff]
    | Except.error _ => StepResult.crashed "AudioRenderError" []
  | Cmd.nextC =>
    if st.currentMeasure < (st.totalMeasures : Int) then
      match rendererPlay st.totalMeasures (st.currentMeasure + 1) (st.currentMeasure + 1) with
      | Except.ok eff =>
        StepResult.cont { st with currentMeasure := st.currentMeasure + 1 } store
          [Effect.rendered st.currentHands st.currentTempo
            (st.currentMeasure + 1, st.currentMeasure + 1) eff]
      | Except.error _ => StepResult.crashed "AudioRenderError" []
    else StepResult.cont st store [Effect.printed "End of piece."]
  | Cmd.prevC =>
    if st.currentMeasure > 1 then
      match rendererPlay st.totalMeasures (st.currentMeasure - 1) (st.currentMeasure - 1) with
      | Except.ok eff =>
        StepResult.cont { st with currentMeasure := st.currentMeasure - 1 } store
          [Effect.rendered st.currentHands st.currentTempo
            (st.currentMeasure - 1, st.currentMeasure - 1) eff]
      | Except.error _ => StepResult.crashed "AudioRenderError" []
    else StepResult.cont st store [Effect.printed "Already at start."]
  | Cmd.tempoSet n =>
    StepResult.cont { st with currentTempo := PyVal.int n }
      (store.update "tempo" (PyVal.int n) user)
      [Effect.printed ("Tempo set to " ++ toString n ++ " (preference saved)")]
  | Cmd.tempoInvalid => StepResult.cont st store [Effect.printed "Invalid tempo."]
  | Cmd.handSet h =>
    if h = chars "left" ∨ h = chars "right" ∨ h = chars "both" then
      StepResult.cont
        { st with currentHands :=
            if h = chars "both" then ["left", "right"] else [String.mk h] }
        (store.update "hand" (PyVal.str (String.mk h)) user)
        [Effect.printed ("Hand set to " ++ String.mk h ++ " (preference saved)")]
    else StepResult.cont st store [Effect.printed "Invalid hand. Use left, right, or both."]
  | Cmd.handMissing => StepResult.crashed "IndexError" []
  | Cmd.unknown => StepResult.cont st store [Effect.printed "Unknown command."]

/-- One full iteration of the interactive loop body
(src/main.py lines 341-401). -/
def stepCmd (user : String) (st : SessionState) (store : PrefStore)
    (line : List Char) : StepResult :=
  applyCmd user st store (parseCmd line)

/-- Session initialization, src/main.py lines 329-338: position starts at
1, `total_measures = len(corrected_data.get('measures', []))` with a
fallback to 1 when there are no measures, tempo from `args.tempo`, hands
from `args.hand` (any value other than `'left'`/`'right'`, including the
`None` that the preference step can produce, yields both hands). -/
def initSession (data : MusicData) (argsTempo : PyVal) (argsHand : PyVal) :
    SessionState :=
  { currentMeasure := 1
    totalMeasures := if data.measures.length = 0 then 1 else data.measures.length
    currentTempo := argsTempo
    currentHands :=
      if argsHand = PyVal.str "left" then ["left"]
      else if argsHand = PyVal.str "right" then ["right"]
      else ["left", "right"] }

/-- The navigation invariant claimed by spec section 4.4. -/
def measureInv (st : SessionState) : Prop :=
  1 ≤ st.currentMeasure ∧ st.currentMeasure ≤ (st.totalMeasures : Int)

/-- A session over a three-measure score, used by concrete instances. -/
def demoData : MusicData :=
  ⟨"C Major", "120",
    [⟨1, [⟨["C4"], "quarter"⟩], []⟩, ⟨2, [], []⟩, ⟨3, [], [⟨["C3"], "half"⟩]⟩]⟩

/-- The session state right after initialization on `demoData`. -/
def demoState : SessionState := initSession demoData PyVal.none (PyVal.str "both")

example : demoState = ⟨1, 3, PyVal.none, ["left", "right"]⟩ := by decide

example : parseCmd (chars "play 5-2") = Cmd.playRange 5 2 := by decide

example : parseCmd (chars "play") = Cmd.playAll := by decide

example : parseCmd (chars "  NEXT  ") = Cmd.nextC := by decide

example : parseCmd (chars "tempo -5") = Cmd.tempoSet (-5) := by decide

example : parseCmd (chars "hand") = Cmd.handMissing := by decide

example : parseCmd (chars "bogus") = Cmd.unknown := by decide

example :
    stepCmd "u" demoState ⟨[]⟩ (chars "play 1-5") =
      StepResult.cont ⟨5, 3, PyVal.none, ["left", "right"]⟩ ⟨[]⟩
        [Effect.rendered ["left", "right"] PyVal.none (1, 5) (1, 3)] := by decide

/-! ## Command-string lemmas

The symbolic claim theorems quantify over the digits of the ranges and
tempos typed by the user; these lemmas evaluate the normalization and
splitting of such command lines. -/

/-- Token hypotheses for a numeric argument of `play`: no whitespace,
fixed by lower-casing, and hyphen-free. -/
def tokenNum (l : List Char) : Prop :=
  ∀ c ∈ l, pyIsWs c = false ∧ pyLowerChar c = c ∧ c ≠ '-'

/-- Token hypotheses for the argument of `tempo`: no whitespace and fixed
by lower-casing. -/
def tokenNoWs (l : List Char) : Prop :=
  ∀ c ∈ l, pyIsWs c = false ∧ pyLowerChar c = c

instance (l : List Char) : Decidable (tokenNum l) := by
  unfold tokenNum; infer_instance

instance (l : List Char) : Decidable (tokenNoWs l) := by
  unfold tokenNoWs; infer_instance

/-- Restriction to ASCII: outside it, Python's `int()` also accepts
non-ASCII Unicode decimal digits that the model's `pyIntChars` rejects. -/
def asciiTok (l : List Char) : Prop := ∀ c ∈ l, c.toNat < 128

instance (l : List Char) : Decidable (asciiTok l) := by
  unfold asciiTok; infer_instance

theorem cons_ne_of_head {c d : Char} (h : c ≠ d) (l m : List Char) :
    c :: l ≠ d :: m := by
  intro he; injection he with h1 _; exact h h1

theorem head_reverse_mem {l : List Char} {c : Char}
    (h : l.reverse.head? = Option.some c) : c ∈ l := by
  have hm : c ∈ l.reverse := by
    cases hr : l.reverse with
    | nil => rw [hr] at h; cases h
    | cons d ds =>
      rw [hr] at h
      injection h with h1
      rw [← h1]; exact List.mem_cons_self d ds
  exact List.mem_reverse.mp hm

theorem reverse_head_append (u v : List Char) (hv : v ≠ []) :
    (u ++ v).reverse.head? = v.reverse.head? := by
  rw [List.reverse_append]
  cases hr : v.reverse with
  | nil => exact absurd (List.reverse_eq_nil_iff.mp hr) hv
  | cons c cs => simp

theorem dropWhile_head_false (p : Char → Bool) (l : List Char)
    (h : ∀ c ∈ l.head?, p c = false) : l.dropWhile p = l := by
  cases l with
  | nil => rfl
  | cons c cs =>
    have hc : p c = false := h c (by simp)
    simp [List.dropWhile_cons, hc]

theorem pyStrip_eq_self (l : List Char)
    (h1 : ∀ c ∈ l.head?, pyIsWs c = false)
    (h2 : ∀ c ∈ l.reverse.head?, pyIsWs c = false) : pyStrip l = l := by
  unfold pyStrip
  rw [dropWhile_head_false _ _ h1, dropWhile_head_false _ _ h2, List.reverse_reverse]

theorem pyLower_eq_self (l : List Char) (h : ∀ c ∈ l, pyLowerChar c = c) :
    pyLower l = l := by
  unfold pyLower
  induction l with
  | nil => rfl
  | cons c cs ih =>
    rw [List.map_cons, h c (by simp), ih (fun d hd => h d (List.mem_cons_of_mem c hd))]

theorem wordsAux_cons_notWs (c : Char) (cs acc : List Char)
    (hc : pyIsWs c = false) :
    wordsAux (c :: cs) acc = wordsAux cs (c :: acc) := by
  simp only [wordsAux, hc, Bool.false_eq_true, if_false]

theorem wordsAux_cons_ws (c : Char) (cs acc : List Char) (hc : pyIsWs c = true)
    (hacc : acc ≠ []) :
    wordsAux (c :: cs) acc = acc.reverse :: wordsAux cs [] := by
  have he : acc.isEmpty = false := by
    cases acc with
    | nil => exact absurd rfl hacc
    | cons x xs => rfl
  simp only [wordsAux, hc, if_true, he, Bool.false_eq_true, if_false]

theorem wordsAux_noWs (r : List Char) (hr : r ≠ [])
    (h : ∀ c ∈ r, pyIsWs c = false) :
    ∀ acc, wordsAux r acc = [acc.reverse ++ r] := by
  induction r with
  | nil => exact absurd rfl hr
  | cons c cs ih =>
    intro acc
    have hc : pyIsWs c = false := h c (by simp)
    rw [wordsAux_cons_notWs c cs acc hc]
    cases cs with
    | nil => simp [wordsAux]
    | cons d ds =>
      rw [ih (by simp) (fun e he => h e (List.mem_cons_of_mem c he)) (c :: acc)]
      simp [List.reverse_cons, List.append_assoc]

theorem wordsAux_word_space (r : List Char) :
    ∀ (w acc : List Char), acc ≠ [] → (∀ c ∈ w, pyIsWs c = false) →
      wordsAux (w ++ ' ' :: r) acc = (acc.reverse ++ w) :: wordsAux r [] := by
  intro w
  induction w with
  | nil =>
    intro acc hacc _
    rw [List.nil_append, wordsAux_cons_ws ' ' r acc (by decide) hacc, List.append_nil]
  | cons c w' ih =>
    intro acc hacc hw
    have hc : pyIsWs c = false := hw c (by simp)
    rw [List.cons_append, wordsAux_cons_notWs c _ acc hc,
      ih (c :: acc) (by simp) (fun d hd => hw d (List.mem_cons_of_mem c hd))]
    simp [List.reverse_cons, List.append_assoc]

theorem pyWords_word_space (w r : List Char) (hw : w ≠ [])
    (hww : ∀ c ∈ w, pyIsWs c = false) (hr : r ≠ [])
    (hrw : ∀ c ∈ r, pyIsWs c = false) :
    pyWords (w ++ ' ' :: r) = [w, r] := by
  cases w with
  | nil => exact absurd rfl hw
  | cons c w' =>
    have hc : pyIsWs c = false := hww c (by simp)
    unfold pyWords
    rw [List.cons_append, wordsAux_cons_notWs c _ [] hc,
      wordsAux_word_space r w' [c] (by simp)
        (fun d hd => hww d (List.mem_cons_of_mem c hd)),
      wordsAux_noWs r hr hrw []]
    simp

theorem splitHyphen_noHyphen (l : List Char) (h : ∀ c ∈ l, c ≠ '-') :
    splitHyphen l = [l] := by
  induction l with
  | nil => rfl
  | cons c cs ih =>
    have hc : c ≠ '-' := h c (by simp)
    rw [splitHyphen, if_neg hc, ih (fun d hd => h d (List.mem_cons_of_mem c hd))]

theorem splitHyphen_append (a b : List Char) (ha : ∀ c ∈ a, c ≠ '-')
    (hb : ∀ c ∈ b, c ≠ '-') :
    splitHyphen (a ++ '-' :: b) = [a, b] := by
  induction a with
  | nil =>
    rw [List.nil_append, splitHyphen, if_pos rfl, splitHyphen_noHyphen b hb]
  | cons c a' ih =>
    have hc : c ≠ '-' := ha c (by simp)
    rw [List.cons_append, splitHyphen, if_neg hc,
      ih (fun d hd => ha d (List.mem_cons_of_mem c hd))]

/-- The command line `play a-b` for numeric tokens `a`, `b`. -/
def playRangeCmd (a b : List Char) : List Char :=
  chars "play " ++ (a ++ '-' :: b)

/-- The command line `tempo t` for a token `t`. -/
def tempoCmd (t : List Char) : List Char :=
  chars "tempo " ++ t

theorem norm_playRangeCmd (a b : List Char) (ha : tokenNum a) (hb : tokenNum b) :
    pyNorm (playRangeCmd a b) = playRangeCmd a b := by
  have hstrip : pyStrip (playRangeCmd a b) = playRangeCmd a b := by
    apply pyStrip_eq_self
    · intro c hc
      have hp : 'p' = c := by
        simpa [playRangeCmd, chars] using hc
      rw [← hp]; decide
    · intro c hc
      have h1 : (playRangeCmd a b).reverse.head? = ('-' :: b).reverse.head? := by
        unfold playRangeCmd
        rw [reverse_head_append _ _ (by simp), reverse_head_append _ _ (by simp)]
      rw [h1] at hc
      rcases List.mem_cons.mp (head_reverse_mem hc) with h | h
      · rw [h]; decide
      · exact (hb c h).1
  have hlower : pyLower (playRangeCmd a b) = playRangeCmd a b := by
    have h1 : pyLower a = a := pyLower_eq_self a (fun c hc => (ha c hc).2.1)
    have h2 : pyLower b = b := pyLower_eq_self b (fun c hc => (hb c hc).2.1)
    unfold playRangeCmd pyLower
    rw [List.map_append, List.map_append, List.map_cons]
    unfold pyLower at h1 h2
    rw [h1, h2]
    rfl
  unfold pyNorm
  rw [hstrip, hlower]

theorem norm_tempoCmd (t : List Char) (ht : t ≠ []) (hw : tokenNoWs t) :
    pyNorm (tempoCmd t) = tempoCmd t := by
  have hstrip : pyStrip (tempoCmd t) = tempoCmd t := by
    apply pyStrip_eq_self
    · intro c hc
      have hp : 't' = c := by
        simpa [tempoCmd, chars] using hc
      rw [← hp]; decide
    · intro c hc
      have h1 : (tempoCmd t).reverse.head? = t.reverse.head? := by
        unfold tempoCmd
        rw [reverse_head_append _ _ ht]
      rw [h1] at hc
      exact (hw c (head_reverse_mem hc)).1
  have hlower : pyLower (tempoCmd t) = tempoCmd t := by
    have h1 : pyLower t = t := pyLower_eq_self t (fun c hc => (hw c hc).2)
    unfold tempoCmd pyLower
    rw [List.map_append]
    unfold pyLower at h1
    rw [h1]
    rfl
  unfold pyNorm
  rw [hstrip, hlower]

theorem words_playRangeCmd (a b : List Char) (ha : tokenNum a) (hb : tokenNum b) :
    pyWords (playRangeCmd a b) = [chars "play", a ++ '-' :: b] := by
  unfold playRangeCmd
  have : chars "play " ++ (a ++ '-' :: b) = chars "play" ++ ' ' :: (a ++ '-' :: b) := rfl
  rw [this]
  apply pyWords_word_space
  · simp [chars]
  · decide
  · simp
  · intro c hc
    rcases List.mem_append.mp hc with h | h
    · exact (ha c h).1
    · rcases List.mem_cons.mp h with h | h
      · rw [h]; decide
      · exact (hb c h).1

theorem words_tempoCmd (t : List Char) (ht : t ≠ []) (hw : tokenNoWs t) :
    pyWords (tempoCmd t) = [chars "tempo", t] := by
  unfold tempoCmd
  have : chars "tempo " ++ t = chars "tempo" ++ ' ' :: t := rfl
  rw [this]
  apply pyWords_word_space
  · simp [chars]
  · decide
  · exact ht
  · exact fun c hc => (hw c hc).1

theorem parseCmd_playRangeCmd (a b : List Char) (s e : Int)
    (hs : pyIntChars a = Option.some s) (he : pyIntChars b = Option.some e)
    (ha : tokenNum a) (hb : tokenNum b) :
    parseCmd (playRangeCmd a b) = Cmd.playRange s e := by
  have hnorm := norm_playRangeCmd a b ha hb
  have hwords := words_playRangeCmd a b ha hb
  have hne : playRangeCmd a b ≠ chars "exit" :=
    cons_ne_of_head (by decide) _ _
  have hsw : startsWithChars (chars "play") (playRangeCmd a b) = true := rfl
  have hsplit : splitHyphen (a ++ '-' :: b) = [a, b] :=
    splitHyphen_append a b (fun c hc => (ha c hc).2.2) (fun c hc => (hb c hc).2.2)
  unfold parseCmd
  rw [hnorm, if_neg hne, hsw, if_pos rfl, hwords]
  have hgd : ([chars "play", a ++ '-' :: b] : List (List Char)).getD 1 [] = a ++ '-' :: b := rfl
  rw [hgd]
  rw [if_pos (by simp : ([chars "play", a ++ '-' :: b] : List (List Char)).length > 1)]
  rw [if_pos (by simp : '-' ∈ a ++ '-' :: b)]
  rw [hsplit]
  simp only [hs, he]

theorem parseCmd_tempoCmd (t : List Char) (ht : t ≠ []) (hw : tokenNoWs t) :
    parseCmd (tempoCmd t) =
      match pyIntChars t with
      | Option.some n => Cmd.tempoSet n
      | Option.none => Cmd.tempoInvalid := by
  have hnorm := norm_tempoCmd t ht hw
  have hwords := words_tempoCmd t ht hw
  have hne1 : tempoCmd t ≠ chars "exit" := cons_ne_of_head (by decide) _ _
  have hne2 : tempoCmd t ≠ chars "next" := cons_ne_of_head (by decide) _ _
  have hne3 : tempoCmd t ≠ chars "prev" := cons_ne_of_head (by decide) _ _
  have hsw1 : startsWithChars (chars "play") (tempoCmd t) = false := rfl
  have hsw2 : startsWithChars (chars "tempo") (tempoCmd t) = true := rfl
  unfold parseCmd
  rw [hnorm, if_neg hne1, hsw1]
  rw [if_neg (by simp : ¬(false = true))]
  rw [if_neg hne2, if_neg hne3, hsw2, if_pos rfl, hwords]
  rfl

instance (st : SessionState) : Decidable (measureInv st) := by
  unfold measureInv; infer_instance

/-! ## Claims -/

/-- C1: for every playback session state, invoking `play` with a reversed
range `start-end` where start > end reports an error ("Invalid range.") to
the caller and leaves `current_measure` unchanged; the session continues
(the step result is `cont` with the state and store untouched). -/
theorem spec_c1_reversed_range_error (st : SessionState) (store : PrefStore)
    (u : String) (a b : List Char) (s e : Int)
    (hs : pyIntChars a = Option.some s) (he : pyIntChars b = Option.some e)
    (ha : tokenNum a) (hb : tokenNum b) (hrev : s > e) :
    stepCmd u st store (playRangeCmd a b) =
      StepResult.cont st store [Effect.printed "Invalid range."] := by
  unfold stepCmd
  rw [parseCmd_playRangeCmd a b s e hs he ha hb]
  simp only [applyCmd, rendererPlay, if_pos hrev]

/-- Witness for C1: `play 5-2` on the three-measure demo session. -/
theorem spec_c1_witness :
    stepCmd "u" demoState ⟨[]⟩ (playRangeCmd (chars "5") (chars "2")) =
      StepResult.cont demoState ⟨[]⟩ [Effect.printed "Invalid range."] :=
  spec_c1_reversed_range_error demoState ⟨[]⟩ "u" (chars "5") (chars "2") 5 2
    (by decide) (by decide) (by decide) (by decide) (by decide)

/-- C2 counterexample: on the three-measure demo session (so
`total_measures = 3`, invariant holding), `play 1-5` is not rejected — but
the position recorded in session state is the raw end 5: the renderer
renders the clamped range (1, 3) while `current_measure` becomes 5, which
lies outside [1, total_measures].  The claim that the end recorded in
session state is clamped, and that the position stays in range, is false. -/
theorem spec_c2_counterexample :
    stepCmd "u" demoState ⟨[]⟩ (chars "play 1-5") =
      StepResult.cont ⟨5, 3, PyVal.none, ["left", "right"]⟩ ⟨[]⟩
        [Effect.rendered ["left", "right"] PyVal.none (1, 5) (1, 3)] ∧
    demoState.totalMeasures = 3 ∧
    ¬ measureInv ⟨5, 3, PyVal.none, ["left", "right"]⟩ := by decide

/-- C2 (amended): for every range play command `start-end` with
start ≤ end, the command is never rejected: the renderer is invoked with
the raw range and renders it with end clamped to `total_measures` and
start clamped to 1; the session position is then set to the raw end,
which may lie outside [1, total_measures]. -/
theorem spec_c2_amended_clamped_render (st : SessionState) (store : PrefStore)
    (u : String) (a b : List Char) (s e : Int)
    (hs : pyIntChars a = Option.some s) (he : pyIntChars b = Option.some e)
    (ha : tokenNum a) (hb : tokenNum b) (hle : s ≤ e) :
    stepCmd u st store (playRangeCmd a b) =
      StepResult.cont { st with currentMeasure := e } store
        [Effect.rendered st.currentHands st.currentTempo (s, e)
          (max 1 s, min (st.totalMeasures : Int) e)] := by
  unfold stepCmd
  rw [parseCmd_playRangeCmd a b s e hs he ha hb]
  simp only [applyCmd, rendererPlay, if_neg (not_lt.mpr hle)]

/-- Witness for C2 (amended): `play 2-5` on the demo session renders the
clamped range and sets the position to the raw 5. -/
theorem spec_c2_witness :
    stepCmd "u" demoState ⟨[]⟩ (playRangeCmd (chars "2") (chars "5")) =
      StepResult.cont { demoState with currentMeasure := 5 } ⟨[]⟩
        [Effect.rendered demoState.currentHands demoState.currentTempo (2, 5)
          (max 1 2, min (demoState.totalMeasures : Int) 5)] :=
  spec_c2_amended_clamped_render demoState ⟨[]⟩ "u" (chars "2") (chars "5") 2 5
    (by decide) (by decide) (by decide) (by decide) (by decide)

/-- C3 counterexample: a bare `play` on the demo session (position 1,
total 3) renders (1, 3) successfully but leaves the session state exactly
as it was: `current_measure` stays 1 instead of advancing to
`total_measures` = 3. -/
theorem spec_c3_counterexample :
    stepCmd "u" demoState ⟨[]⟩ (chars "play") =
      StepResult.cont demoState ⟨[]⟩
        [Effect.rendered ["left", "right"] PyVal.none (1, 3) (1, 3)] ∧
    demoState.currentMeasure = 1 ∧ demoState.totalMeasures = 3 := by decide

/-- C3 (amended): a `play` command with no range plays from
`current_measure` through `total_measures` and, on success, leaves
`current_measure` unchanged (the no-range branch, src/main.py line 365,
never updates the position). -/
theorem spec_c3_amended_play_all (st : SessionState) (store : PrefStore)
    (u : String) (h1 : 1 ≤ st.currentMeasure)
    (h2 : st.currentMeasure ≤ (st.totalMeasures : Int)) :
    stepCmd u st store (chars "play") =
      StepResult.cont st store
        [Effect.rendered st.currentHands st.currentTempo
          (st.currentMeasure, (st.totalMeasures : Int))
          (st.currentMeasure, (st.totalMeasures : Int))] := by
  show applyCmd u st store Cmd.playAll =
    StepResult.cont st store
      [Effect.rendered st.currentHands st.currentTempo
        (st.currentMeasure, (st.totalMeasures : Int))
        (st.currentMeasure, (st.totalMeasures : Int))]
  simp only [applyCmd, rendererPlay, if_neg (not_lt.mpr h2)]
  rw [max_eq_right h1, min_self]

/-- Witness for C3 (amended): bare `play` on the demo session. -/
theorem spec_c3_witness :
    stepCmd "u" demoState ⟨[]⟩ (chars "play") =
      StepResult.cont demoState ⟨[]⟩
        [Effect.rendered demoState.currentHands demoState.currentTempo
          (demoState.currentMeasure, (demoState.totalMeasures : Int))
          (demoState.currentMeasure, (demoState.totalMeasures : Int))] :=
  spec_c3_amended_play_all demoState ⟨[]⟩ "u" (by decide) (by decide)

/-- C4 counterexample: `tempo 0` — zero is not a positive integer, yet the
command is accepted: the session tempo becomes 0 and the preference store
is mutated, instead of an error report with both left unchanged. -/
theorem spec_c4_counterexample :
    stepCmd "default_user" demoState ⟨[]⟩ (chars "tempo 0") =
      StepResult.cont ⟨1, 3, PyVal.int 0, ["left", "right"]⟩
        ⟨[("default_user", "tempo", PyVal.int 0)]⟩
        [Effect.printed "Tempo set to 0 (preference saved)"] := by decide

/-- C4 (amended): the `tempo` command validates only that its argument
parses as a Python integer (PEP 515 underscore grouping included) — any
integer, including zero and negative values, is accepted, stored as the
session tempo and persisted to the preference store; a missing argument,
or an ASCII argument that does not parse as an integer, reports
"Invalid tempo." and leaves both the session tempo and the store
unchanged. -/
theorem spec_c4_amended_tempo :
    (∀ (st : SessionState) (store : PrefStore) (u : String) (t : List Char)
      (n : Int), t ≠ [] → tokenNoWs t → pyIntChars t = Option.some n →
      stepCmd u st store (tempoCmd t) =
        StepResult.cont { st with currentTempo := PyVal.int n }
          (store.update "tempo" (PyVal.int n) u)
          [Effect.printed ("Tempo set to " ++ toString n ++ " (preference saved)")]) ∧
    (∀ (st : SessionState) (store : PrefStore) (u : String) (t : List Char),
      t ≠ [] → tokenNoWs t → asciiTok t → pyIntChars t = Option.none →
      stepCmd u st store (tempoCmd t) =
        StepResult.cont st store [Effect.printed "Invalid tempo."]) ∧
    (∀ (st : SessionState) (store : PrefStore) (u : String),
      stepCmd u st store (chars "tempo") =
        StepResult.cont st store [Effect.printed "Invalid tempo."]) := by
  refine ⟨?_, ?_, ?_⟩
  · intro st store u t n ht hw hn
    unfold stepCmd
    rw [parseCmd_tempoCmd t ht hw, hn]
    rfl
  · intro st store u t ht hw _hascii hn
    unfold stepCmd
    rw [parseCmd_tempoCmd t ht hw, hn]
    rfl
  · intro st store u
    rfl

/-- Witness for C4 (amended): `tempo 90` on the demo session (first
conjunct) and `tempo abc` (second conjunct, an ASCII non-integer
argument). -/
theorem spec_c4_witness :
    (stepCmd "u" demoState ⟨[]⟩ (tempoCmd (chars "90")) =
      StepResult.cont { demoState with currentTempo := PyVal.int 90 }
        (PrefStore.update ⟨[]⟩ "tempo" (PyVal.int 90) "u")
        [Effect.printed ("Tempo set to " ++ toString (90 : Int) ++ " (preference saved)")]) ∧
    (stepCmd "u" demoState ⟨[]⟩ (tempoCmd (chars "abc")) =
      StepResult.cont demoState ⟨[]⟩ [Effect.printed "Invalid tempo."]) :=
  ⟨spec_c4_amended_tempo.1 demoState ⟨[]⟩ "u" (chars "90") 90
      (by decide) (by decide) (by decide),
    spec_c4_amended_tempo.2.1 demoState ⟨[]⟩ "u" (chars "abc")
      (by decide) (by decide) (by decide) (by decide)⟩

/-- C5: the claim is falsified by the code: a `hand` command with no
argument evaluates `h = cmd.split()[1]` outside any `try`
(src/main.py line 391), so the `IndexError` propagates out of the loop
and terminates the session — command handling can end the session other
than by `exit` or end-of-input. -/
theorem spec_c5_hand_without_argument_crashes (st : SessionState)
    (store : PrefStore) (u : String) :
    stepCmd u st store (chars "hand") = StepResult.crashed "IndexError" [] := rfl

/-- C6: the claim is falsified by the code: processing `tempo 90` stores
the value under the preference key `'tempo'` (src/main.py line 385), while
the workflow later reads the key `'default_tempo'` (src/main.py line 309);
after the command, the read of `'default_tempo'` finds nothing and the
preferred-tempo application leaves `args.tempo` as `None`. -/
theorem spec_c6_tempo_key_mismatch :
    stepCmd "default_user" demoState ⟨[]⟩ (chars "tempo 90") =
      StepResult.cont ⟨1, 3, PyVal.int 90, ["left", "right"]⟩
        ⟨[("default_user", "tempo", PyVal.int 90)]⟩
        [Effect.printed "Tempo set to 90 (preference saved)"] ∧
    PrefStore.lookup ⟨[("default_user", "tempo", PyVal.int 90)]⟩
        "default_user" "default_tempo" = Option.none ∧
    appliedTempo ⟨[("default_user", "tempo", PyVal.int 90)]⟩
        "default_user" PyVal.none = PyVal.none := by decide

/-- C7: the correction step is driven by deep structural equality: the
learner and the pattern recorder (the only operations of this step that
create CorrectionRecords or mutate the preference store) are invoked
exactly when the corrected score is not deep-equal to the original; on
deep-equal input the step is a no-op. -/
theorem spec_c7_correction_no_op_iff_equal (m c : MusicData) (u : String) :
    ((correctionStep m c u).learnCalls = [] ∧
      (correctionStep m c u).patternCalls = []) ↔ c = m := by
  unfold correctionStep
  by_cases h : c = m
  · simp [h]
  · simp [h]

/-- C8: under the session invariant, `next` below the last measure
increments the position and plays that single measure, at the last measure
it reports "End of piece." leaving the state unchanged; `prev` is
symmetric, decrementing above measure 1 and reporting "Already at start."
at measure 1 with the state unchanged. -/
theorem spec_c8_next_prev (st : SessionState) (store : PrefStore) (u : String)
    (h1 : 1 ≤ st.currentMeasure)
    (h2 : st.currentMeasure ≤ (st.totalMeasures : Int)) :
    (st.currentMeasure < (st.totalMeasures : Int) →
      stepCmd u st store (chars "next") =
        StepResult.cont { st with currentMeasure := st.currentMeasure + 1 } store
          [Effect.rendered st.currentHands st.currentTempo
            (st.currentMeasure + 1, st.currentMeasure + 1)
            (st.currentMeasure + 1, st.currentMeasure + 1)]) ∧
    (st.currentMeasure = (st.totalMeasures : Int) →
      stepCmd u st store (chars "next") =
        StepResult.cont st store [Effect.printed "End of piece."]) ∧
    (1 < st.currentMeasure →
      stepCmd u st store (chars "prev") =
        StepResult.cont { st with currentMeasure := st.currentMeasure - 1 } store
          [Effect.rendered st.currentHands st.currentTempo
            (st.currentMeasure - 1, st.currentMeasure - 1)
            (st.currentMeasure - 1, st.currentMeasure - 1)]) ∧
    (st.currentMeasure = 1 →
      stepCmd u st store (chars "prev") =
        StepResult.cont st store [Effect.printed "Already at start."]) := by
  refine ⟨fun h => ?_, fun h => ?_, fun h => ?_, fun h => ?_⟩
  · show applyCmd u st store Cmd.nextC = _
    simp only [applyCmd, rendererPlay, if_pos h, if_neg (lt_irrefl (st.currentMeasure + 1))]
    rw [max_eq_right (by omega), min_eq_right (by omega)]
  · show applyCmd u st store Cmd.nextC = _
    simp only [applyCmd, if_neg (by omega : ¬ st.currentMeasure < (st.totalMeasures : Int))]
  · show applyCmd u st store Cmd.prevC = _
    simp only [applyCmd, rendererPlay, if_pos h, if_neg (lt_irrefl (st.currentMeasure - 1))]
    rw [max_eq_right (by omega), min_eq_right (by omega)]
  · show applyCmd u st store Cmd.prevC = _
    simp only [applyCmd, if_neg (by omega : ¬ (1 : Int) < st.currentMeasure)]

/-- Witness for C8: `next` on the demo session at measure 1 of 3. -/
theorem spec_c8_witness :
    stepCmd "u" demoState ⟨[]⟩ (chars "next") =
      StepResult.cont { demoState with currentMeasure := demoState.currentMeasure + 1 } ⟨[]⟩
        [Effect.rendered demoState.currentHands demoState.currentTempo
          (demoState.currentMeasure + 1, demoState.currentMeasure + 1)
          (demoState.currentMeasure + 1, demoState.currentMeasure + 1)] :=
  (spec_c8_next_prev demoState ⟨[]⟩ "u" (by decide) (by decide)).1 (by decide)

/-- C9 counterexample: the invariant is not preserved by every command: on
the freshly initialized three-measure demo session (invariant holding),
`play 1-5` yields `current_measure = 5 ∉ [1, 3]`. -/
theorem spec_c9_counterexample :
    measureInv demoState ∧
    stepCmd "u" demoState ⟨[]⟩ (chars "play 1-5") =
      StepResult.cont ⟨5, 3, PyVal.none, ["left", "right"]⟩ ⟨[]⟩
        [Effect.rendered ["left", "right"] PyVal.none (1, 5) (1, 3)] ∧
    ¬ measureInv ⟨5, 3, PyVal.none, ["left", "right"]⟩ := by decide

/-- C9 (amended): the session initializes `current_measure` to 1 and
`total_measures` to the number of measures (1 when the measures sequence
is empty), establishing `current_measure ∈ [1, total_measures]`; the
invariant is then preserved by every command except the `play` commands
that carry an explicit argument (a measure number or a range) — when the
argument parses, those set the position to the raw requested value, which
can leave the interval (see the counterexample).  The exclusion covers
all four argument-carrying classifications of `parseCmd`, so it contains
every line the program itself could execute as an argument-carrying
play. -/
theorem spec_c9_amended_invariant :
    (∀ (data : MusicData) (tempoArg handArg : PyVal),
      (initSession data tempoArg handArg).currentMeasure = 1 ∧
      (initSession data tempoArg handArg).totalMeasures =
        (if data.measures.length = 0 then 1 else data.measures.length) ∧
      measureInv (initSession data tempoArg handArg)) ∧
    (∀ (u : String) (st : SessionState) (store : PrefStore) (line : List Char)
      (st' : SessionState) (store' : PrefStore) (effs : List Effect),
      measureInv st →
      (∀ s e : Int, parseCmd line ≠ Cmd.playRange s e) →
      parseCmd line ≠ Cmd.playRangeInvalid →
      (∀ m : Int, parseCmd line ≠ Cmd.playSingle m) →
      parseCmd line ≠ Cmd.playSingleInvalid →
      stepCmd u st store line = StepResult.cont st' store' effs →
      measureInv st') := by
  constructor
  · intro data tempoArg handArg
    refine ⟨rfl, rfl, ?_⟩
    constructor
    · exact le_refl 1
    · show (1 : Int) ≤ ((if data.measures.length = 0 then 1 else data.measures.length : Nat) : Int)
      by_cases hl : data.measures.length = 0
      · rw [if_pos hl]; decide
      · rw [if_neg hl]; omega
  · intro u st store line st' store' effs hinv hnr hnri hns hnsi hstep
    obtain ⟨hinv1, hinv2⟩ := hinv
    unfold stepCmd at hstep
    cases hp : parseCmd line with
    | exitC => rw [hp] at hstep; simp [applyCmd] at hstep
    | playRange s e => exact absurd hp (hnr s e)
    | playRangeInvalid => exact absurd hp hnri
    | playSingle m => exact absurd hp (hns m)
    | playSingleInvalid => exact absurd hp hnsi
    | playAll =>
      rw [hp] at hstep
      simp only [applyCmd] at hstep
      split at hstep
      · simp only [StepResult.cont.injEq] at hstep
        obtain ⟨h1, -, -⟩ := hstep
        rw [← h1]; exact ⟨hinv1, hinv2⟩
      · simp at hstep
    | nextC =>
      rw [hp] at hstep
      simp only [applyCmd] at hstep
      split at hstep
      · split at hstep
        · simp only [StepResult.cont.injEq] at hstep
          obtain ⟨h1, -, -⟩ := hstep
          rw [← h1]
          refine ⟨?_, ?_⟩
          · show (1 : Int) ≤ st.currentMeasure + 1
            omega
          · show st.currentMeasure + 1 ≤ (st.totalMeasures : Int)
            omega
        · simp at hstep
      · simp only [StepResult.cont.injEq] at hstep
        obtain ⟨h1, -, -⟩ := hstep
        rw [← h1]; exact ⟨hinv1, hinv2⟩
    | prevC =>
      rw [hp] at hstep
      simp only [applyCmd] at hstep
      split at hstep
      · split at hstep
        · simp only [StepResult.cont.injEq] at hstep
          obtain ⟨h1, -, -⟩ := hstep
          rw [← h1]
          refine ⟨?_, ?_⟩
          · show (1 : Int) ≤ st.currentMeasure - 1
            omega
          · show st.currentMeasure - 1 ≤ (st.totalMeasures : Int)
            omega
        · simp at hstep
      · simp only [StepResult.cont.injEq] at hstep
        obtain ⟨h1, -, -⟩ := hstep
        rw [← h1]; exact ⟨hinv1, hinv2⟩
    | tempoSet n =>
      rw [hp] at hstep
      simp only [applyCmd, StepResult.cont.injEq] at hstep
      obtain ⟨h1, -, -⟩ := hstep
      rw [← h1]; exact ⟨hinv1, hinv2⟩
    | tempoInvalid =>
      rw [hp] at hstep
      simp only [applyCmd, StepResult.cont.injEq] at hstep
      obtain ⟨h1, -, -⟩ := hstep
      rw [← h1]; exact ⟨hinv1, hinv2⟩
    | handSet h =>
      rw [hp] at hstep
      simp only [applyCmd] at hstep
      split at hstep
      · simp only [StepResult.cont.injEq] at hstep
        obtain ⟨h1, -, -⟩ := hstep
        rw [← h1]; exact ⟨hinv1, hinv2⟩
      · simp only [StepResult.cont.injEq] at hstep
        obtain ⟨h1, -, -⟩ := hstep
        rw [← h1]; exact ⟨hinv1, hinv2⟩
    | handMissing => rw [hp] at hstep; simp [applyCmd] at hstep
    | unknown =>
      rw [hp] at hstep
      simp only [applyCmd, StepResult.cont.injEq] at hstep
      obtain ⟨h1, -, -⟩ := hstep
      rw [← h1]; exact ⟨hinv1, hinv2⟩

/-- Witness for C9 (amended): `prev` at measure 1 of the demo session
preserves the invariant. -/
theorem spec_c9_witness : measureInv demoState :=
  spec_c9_amended_invariant.2 "u" demoState ⟨[]⟩ (chars "prev") demoState ⟨[]⟩
    [Effect.printed "Already at start."] (by decide)
    (fun s e h => by
      rw [show parseCmd (chars "prev") = Cmd.prevC from rfl] at h
      exact Cmd.noConfusion h)
    (fun h => by
      rw [show parseCmd (chars "prev") = Cmd.prevC from rfl] at h
      exact Cmd.noConfusion h)
    (fun m h => by
      rw [show parseCmd (chars "prev") = Cmd.prevC from rfl] at h
      exact Cmd.noConfusion h)
    (fun h => by
      rw [show parseCmd (chars "prev") = Cmd.prevC from rfl] at h
      exact Cmd.noConfusion h)
    (by decide)

/-- C10: when the stored preferences of a user contain no
`'preferred_hand'` key and the hand argument is the default `'both'`, the
guard `preferences.get('preferred_hand') != 'both'` is true (None is not
`'both'`), so the hand argument is reassigned to the absent-key result
`None` rather than remaining `'both'`. -/
theorem spec_c10_absent_hand_pref (store : PrefStore) (u : String)
    (h : store.lookup u "preferred_hand" = Option.none) :
    appliedHand store u (PyVal.str "both") = PyVal.none := by
  unfold appliedHand PrefStore.get
  rw [h]
  rfl

/-- Witness for C10: the empty preference store. -/
theorem spec_c10_witness :
    appliedHand ⟨[]⟩ "default_user" (PyVal.str "both") = PyVal.none :=
  spec_c10_absent_hand_pref ⟨[]⟩ "default_user" (by decide)
